import Mathlib

/-!
Verification of the qqhann/KnowledgeTracing orchestration core against its
natural-language specification.

The development shallowly embeds the relevant parts of the repository:
* `src/src/config.py` — `get_option_fallback` (configuration resolution with
  fallback defaults) and `BaseConfig` (dict → attribute object → dict);
* `src/main.py` — checkpoint file naming, the persistence helpers
  (`save_model`, `save_log`, `save_hm_fig`, `save_learning_curve`), the
  seeding block, the `run` load-or-train branch, and the `main` batch loop
  driven by `configparser`.

Python dicts are embedded as association lists in insertion order (keys
assumed distinct, as in real dicts); Python values as the inductive `PyVal`
(floats are modelled as rationals — none of the verified properties depend
on IEEE rounding); exceptions as `Except`/`Option`.
-/

/-- The Python types that occur as fallback defaults in the repository:
`bool`, `int`, `float`, `str`. -/
inductive PyType where
  | bool
  | int
  | float
  | str
deriving DecidableEq

/-- A Python value of one of the four types above.  Floats are modelled as
rationals. -/
inductive PyVal where
  | bool (b : Bool)
  | int (n : Int)
  | float (q : Rat)
  | str (s : String)
deriving DecidableEq

/-- `type(v)` for a modelled Python value. -/
def PyVal.type : PyVal → PyType
  | .bool _ => .bool
  | .int _ => .int
  | .float _ => .float
  | .str _ => .str

/-- Numeric value of a nonempty all-digit character list (the core of
Python's `int(...)` string parsing; the model omits surrounding whitespace
and underscores, which no verified property exercises). -/
def decDigitsVal (cs : List Char) : Option Nat :=
  if cs = [] then none
  else if cs.all Char.isDigit then
    some (cs.foldl (fun acc c => acc * 10 + (c.toNat - 48)) 0)
  else none

/-- Python `int(s)` for a string: optional sign followed by digits. -/
def pyParseInt (s : String) : Option Int :=
  match s.data with
  | '-' :: rest => (decDigitsVal rest).map fun n => -(n : Int)
  | '+' :: rest => (decDigitsVal rest).map fun n => (n : Int)
  | cs => (decDigitsVal cs).map fun n => (n : Int)

/-- Python `float(s)` for a string: optional sign, integer digits, optional
fractional digits (exponent/`inf`/`nan` forms are not modelled; no verified
property exercises them). -/
def pyParseFloat (s : String) : Option Rat :=
  let core : List Char → Option Rat := fun cs =>
    match cs.splitOn '.' with
    | [intPart] => (decDigitsVal intPart).map fun n => (n : Rat)
    | [intPart, fracPart] =>
      match decDigitsVal intPart, decDigitsVal fracPart with
      | some n, some f => some ((n : Rat) + (f : Rat) / ((10 : Rat) ^ fracPart.length))
      | _, _ => none
    | _ => none
  match s.data with
  | '-' :: rest => (core rest).map fun q => -q
  | '+' :: rest => core rest
  | cs => core cs

/-- Python truthiness, as used by `bool(x)`: `bool` is the identity, numbers
are truthy iff nonzero, strings iff nonempty. -/
def pyTruthy : PyVal → Bool
  | .bool b => b
  | .int n => n != 0
  | .float q => q != 0
  | .str s => s != ""

/-- Python `str(x)`: the identity on strings, `"True"`/`"False"` on booleans,
decimal representation on integers.  (`str` of a modelled float prints the
rational; no verified property depends on float printing.) -/
def pyStr : PyVal → String
  | .bool b => if b then "True" else "False"
  | .int n => toString n
  | .float q => toString q
  | .str s => s

/-- Python `int(x)` truncates floats toward zero. -/
def pyTruncRat (q : Rat) : Int :=
  q.num.tdiv (q.den : Int)

/-- Applying a Python type constructor `t(v)`, as `get_option_fallback` does
with `fallback_type(value)`.  `none` models a raised `ValueError`
(unparsable string). -/
def coerce : PyType → PyVal → Option PyVal
  | .bool, v => some (.bool (pyTruthy v))
  | .str, v => some (.str (pyStr v))
  | .int, .bool b => some (.int (if b then 1 else 0))
  | .int, .int n => some (.int n)
  | .int, .float q => some (.int (pyTruncRat q))
  | .int, .str s => (pyParseInt s).map PyVal.int
  | .float, .bool b => some (.float (if b then 1 else 0))
  | .float, .int n => some (.float (n : Rat))
  | .float, .float q => some (.float q)
  | .float, .str s => (pyParseFloat s).map PyVal.float

/-- An entry of the `fallback` dict of `get_option_fallback`: either a
concrete default value, or a bare type marker (`type(fallback[key]) == type`
in the source) meaning the option is required. -/
inductive FbEntry where
  | val (v : PyVal)
  | typ (t : PyType)
deriving DecidableEq

deriving instance DecidableEq for Except

/-- The type a resolved value must have: the type of the concrete default,
or the declared required type. -/
def FbEntry.expectedType : FbEntry → PyType
  | .val v => v.type
  | .typ t => t

/-- The exceptions `get_option_fallback` can raise: the two `KeyError`s of
the source (`key ... found, but is not in fallback.` and `key ... is
required`, which the spec names `UnknownOptionError` and
`MissingRequiredOptionError`), and the `ValueError` that escapes from
`fallback_type(...)` on an unparsable string. -/
inductive ResolveError where
  | unknownOption (k : String)
  | missingRequired (k : String)
  | coercionFailure (k : String)
deriving DecidableEq

/-- The body of the `for key in updated.keys()` loop of
`get_option_fallback`, for one key. -/
def resolveKey (options : List (String × PyVal)) (fallback : List (String × FbEntry))
    (k : String) : Except ResolveError PyVal :=
  match fallback.lookup k with
  | none => .error (.unknownOption k)
  | some (.typ t) =>
    match options.lookup k with
    | none => .error (.missingRequired k)
    | some v =>
      match coerce t v with
      | none => .error (.coercionFailure k)
      | some w => .ok w
  | some (.val d) =>
    match coerce d.type ((options.lookup k).getD d) with
    | none => .error (.coercionFailure k)
    | some w => .ok w

/-- Runs `resolveKey` over a list of keys in order, stopping (raising) at the
first failing key, and collecting `key ↦ value` assignments in order. -/
def resolveKeys (options : List (String × PyVal)) (fallback : List (String × FbEntry)) :
    List String → Except ResolveError (List (String × PyVal))
  | [] => .ok []
  | k :: ks =>
    match resolveKey options fallback k with
    | .error e => .error e
    | .ok v =>
      match resolveKeys options fallback ks with
      | .error e => .error e
      | .ok rest => .ok ((k, v) :: rest)

/-- The keys of `updated = {**fallback, **options}` in Python dict insertion
order: all fallback keys first (in fallback order), then the options keys
that are not fallback keys (in options order). -/
def mergedKeys (options : List (String × PyVal)) (fallback : List (String × FbEntry)) :
    List String :=
  fallback.map Prod.fst ++ (options.map Prod.fst).filter fun k => (fallback.lookup k).isNone

/-- `get_option_fallback(options, fallback)` from `src/src/config.py`:
iterates the keys of `{**fallback, **options}` in order, failing at the
first key that is unknown, required-but-missing, or uncoercible, and
otherwise returning the dict of coerced values. -/
def get_option_fallback (options : List (String × PyVal))
    (fallback : List (String × FbEntry)) : Except ResolveError (List (String × PyVal)) :=
  resolveKeys options fallback (mergedKeys options fallback)

/-- Whether an outcome of resolution is the `UnknownOptionError` KeyError. -/
def isUnknownOptionError : Except ResolveError (List (String × PyVal)) → Bool
  | .error (.unknownOption _) => true
  | _ => false

/-- Whether an outcome of resolution is the `MissingRequiredOptionError`
KeyError. -/
def isMissingRequiredError : Except ResolveError (List (String × PyVal)) → Bool
  | .error (.missingRequired _) => true
  | _ => false

/-- Whether a single-key resolution succeeded. -/
def keyOk : Except ResolveError PyVal → Bool
  | .ok _ => true
  | .error _ => false

/-- Whether a single-key resolution succeeded or raised the
required-option KeyError (as opposed to the unknown-key KeyError or a
ValueError). -/
def keyOkOrMissing : Except ResolveError PyVal → Bool
  | .ok _ => true
  | .error (.missingRequired _) => true
  | .error _ => false

/-- Every value supplied in `options` for a key that `fallback` knows can be
coerced to that key's expected type (no `ValueError` can arise from a
supplied value). -/
def suppliedCoercionsOk (options : List (String × PyVal))
    (fallback : List (String × FbEntry)) : Bool :=
  options.all fun kv =>
    match fallback.lookup kv.1 with
    | some e => (coerce e.expectedType kv.2).isSome
    | none => true

/-- Every key of the fallback schema itself resolves successfully (all
required keys are supplied, all coercions succeed). -/
def fallbackKeysOk (options : List (String × PyVal))
    (fallback : List (String × FbEntry)) : Bool :=
  (fallback.map Prod.fst).all fun k => keyOk (resolveKey options fallback k)

/-- Every resolved value has the type demanded by its fallback entry. -/
def typesMatch (res : List (String × PyVal)) (fallback : List (String × FbEntry)) : Bool :=
  res.all fun kv =>
    match fallback.lookup kv.1 with
    | some e => decide (kv.2.type = e.expectedType)
    | none => false

/-! ### `BaseConfig` (`src/src/config.py`)

A Python object's attribute store is modelled as an association list where
`setattr` conses (so the most recent assignment shadows earlier ones) and
`getattr` takes the first match.  `self._attr_list` is kept as a separate
field; this is faithful whenever no option is itself named `_attr_list`
(which the round-trip property assumes). -/

/-- `setattr(self, k, v)` on the modelled attribute store. -/
def pySetattr (attrs : List (String × PyVal)) (k : String) (v : PyVal) :
    List (String × PyVal) :=
  (k, v) :: attrs

/-- `getattr(self, k)`; `none` models a raised `AttributeError`. -/
def pyGetattr (attrs : List (String × PyVal)) (k : String) : Option PyVal :=
  attrs.lookup k

/-- The state of a `BaseConfig` instance: its attribute store and its
`_attr_list`. -/
structure BaseConfig where
  attrs : List (String × PyVal)
  attr_list : List String
deriving DecidableEq

/-- `BaseConfig.__init__(self, options)`: for each `attr, value` in
insertion order, `setattr(self, attr, value)` then append `attr` to
`self._attr_list`. -/
def BaseConfig.init (options : List (String × PyVal)) : BaseConfig :=
  options.foldl
    (fun c kv => { attrs := pySetattr c.attrs kv.1 kv.2, attr_list := c.attr_list ++ [kv.1] })
    ⟨[], []⟩

/-- Reads back the attributes named by a key list, in order (`none` models
an `AttributeError` on a missing attribute). -/
def getattrAll (attrs : List (String × PyVal)) : List String → Option (List (String × PyVal))
  | [] => some []
  | k :: ks =>
    match pyGetattr attrs k with
    | none => none
    | some v =>
      match getattrAll attrs ks with
      | none => none
      | some rest => some ((k, v) :: rest)

/-- `BaseConfig.as_dict(self)`: `{k: getattr(self, k) for k in self._attr_list}`. -/
def BaseConfig.as_dict (c : BaseConfig) : Option (List (String × PyVal)) :=
  getattrAll c.attrs c.attr_list

/-! ### Checkpoint file naming (`save_model`, `src/main.py`)

`save_model` writes to `f'{config.model_name}_auc{auc:.4f}_e{epoch}.model'`.
The AUC is a float in `[0, 1]`; `{auc:.4f}` renders it rounded to four
decimal places.  The embedding takes the already-rounded AUC as a natural
number `a ≤ 10000` of ten-thousandths, which `{auc:.4f}` renders as the
digit `a / 10000`, a dot, and the four digits of `a % 10000`. -/

/-- The six characters `{auc:.4f}` produces for an AUC of `a` ten-thousandths
(`a ≤ 10000`). -/
def aucChars (a : Nat) : List Char :=
  [Nat.digitChar (a / 10000), '.', Nat.digitChar (a / 1000 % 10),
   Nat.digitChar (a / 100 % 10), Nat.digitChar (a / 10 % 10), Nat.digitChar (a % 10)]

/-- `f'{auc:.4f}'` for an AUC of `a` ten-thousandths. -/
def formatAuc4 (a : Nat) : String :=
  ⟨aucChars a⟩

/-- The checkpoint filename `f'{model_name}_auc{auc:.4f}_e{epoch}.model'`
built by `save_model` (the epoch is rendered in plain decimal, unpadded). -/
def checkpointFilename (model_name : String) (a epoch : Nat) : String :=
  model_name ++ "_auc" ++ formatAuc4 a ++ "_e" ++ Nat.repr epoch ++ ".model"

/-- The learning-curve filename `f'{model_name}_auc{auc:.4f}_e{epoch}.pickle'`
built by `save_log`. -/
def lcPickleFilename (model_name : String) (a epoch : Nat) : String :=
  model_name ++ "_auc" ++ formatAuc4 a ++ "_e" ++ Nat.repr epoch ++ ".pickle"

/-! ### Persistence layer (`save_model`, `save_log`, `save_hm_fig`,
`save_learning_curve` in `src/main.py`)

Each save helper is embedded as the list of filesystem actions it performs,
in order.  Paths are lists of segments (`config.resultsdir / 'x' / 'y'`
becomes `resultsdir ++ ["x", "y"]`). -/

/-- A filesystem action: `dir.mkdir(exist_ok=True)` or a file write
(`torch.save`, `pickle.dump`'s `open(..., 'wb')`, `savefig`). -/
inductive FsAction where
  | mkdirExistOk (dir : List String)
  | writeFile (path : List String)
deriving DecidableEq

/-- The part of the resolved configuration the persistence helpers use. -/
structure SaveConfig where
  resultsdir : List String
  model_name : String
deriving DecidableEq

/-- `save_model(config, model, auc, epoch)`: make `checkpoints/` under the
results directory, then write the named weight file there. -/
def save_model (c : SaveConfig) (a epoch : Nat) : List FsAction :=
  [ .mkdirExistOk (c.resultsdir ++ ["checkpoints"]),
    .writeFile (c.resultsdir ++ ["checkpoints", checkpointFilename c.model_name a epoch]) ]

/-- `save_log(config, data, auc, epoch)`: make `lc_data/`, then write the
learning-curve pickle there. -/
def save_log (c : SaveConfig) (a epoch : Nat) : List FsAction :=
  [ .mkdirExistOk (c.resultsdir ++ ["lc_data"]),
    .writeFile (c.resultsdir ++ ["lc_data", lcPickleFilename c.model_name a epoch]) ]

/-- `save_hm_fig(config, sns_fig)`: make `heatmap/`, then write the figure. -/
def save_hm_fig (c : SaveConfig) : List FsAction :=
  [ .mkdirExistOk (c.resultsdir ++ ["heatmap"]),
    .writeFile (c.resultsdir ++ ["heatmap", c.model_name ++ ".png"]) ]

/-- `save_learning_curve(..., config)`: plots the curves, then writes
`learning_curve/{model_name}.png` — with no `mkdir` call. -/
def save_learning_curve (c : SaveConfig) : List FsAction :=
  [ .writeFile (c.resultsdir ++ ["learning_curve", c.model_name ++ ".png"]) ]

/-- Checks a trace: every file write must be preceded by a `mkdir` of the
directory the file goes into (`made` accumulates the directories created so
far). -/
def dirsEnsured : List FsAction → List (List String) → Bool
  | [], _ => true
  | .mkdirExistOk d :: rest, made => dirsEnsured rest (d :: made)
  | .writeFile p :: rest, made => made.contains p.dropLast && dirsEnsured rest made

/-- A trace never writes into a directory it has not first created
(with `exist_ok`, i.e. created-if-absent). -/
def ensuresTargetDirs (t : List FsAction) : Bool :=
  dirsEnsured t []

/-! ### The seeding block (`src/main.py`, `run`, lines 134–139)

The block is embedded as the list of seeding statements it executes.  The
source reads:
```
SEED = 0
random.seed(SEED)
np.random.seed(SEED)
torch.manual_seed(SEED)
# torch.backends.cudnn.deterministic = True
# torch.backends.cudnn.benchmark = False
```
The last two statements are commented out, and no statement anywhere in
`src/main.py` touches `PYTHONHASHSEED` or any per-device RNG. -/

/-- A seeding-related statement `run` could execute. -/
inductive SeedAction where
  | seedRandom (n : Nat)
  | seedNumpy (n : Nat)
  | seedTorch (n : Nat)
  | setHashSeed (n : Nat)
  | setCudnnDeterministic (b : Bool)
  | setCudnnBenchmark (b : Bool)
deriving DecidableEq

/-- The seeding statements `run` actually executes, in order. -/
def seedSteps : List SeedAction :=
  [ .seedRandom 0, .seedNumpy 0, .seedTorch 0 ]

/-- Whether a seeding statement fixes the process hash-randomization seed. -/
def SeedAction.isHashSeedSet : SeedAction → Bool
  | .setHashSeed _ => true
  | _ => false

/-- Whether a seeding statement requests deterministic (non-heuristic)
backend execution. -/
def SeedAction.isDeterminismRequest : SeedAction → Bool
  | .setCudnnDeterministic true => true
  | _ => false

/-! ### `run(config)` — the load-or-train branch (`src/main.py`)

`run` first asserts `config.model_name in {'encdec', 'basernn', 'baselstm',
'seq2seq'}`, seeds the RNGs, builds the model and data (external
collaborators), and then either loads a prior checkpoint
(`if config.load_model:` — Python truthiness, i.e. a non-empty path) or
constructs a `Trainer` and calls `train_model()`.  No call to any
`pre_train_model` occurs anywhere in `src/main.py`. -/

/-- An observable event of `run`. -/
inductive RunEvent where
  | seedingPerformed
  | loadedCheckpoint (path : String)
  | trainerConstructed
  | trainModelCalled
  | preTrainModelCalled
deriving DecidableEq

/-- `run` fails with `AssertionError` on an unknown model name. -/
inductive RunError where
  | assertionFailed
deriving DecidableEq

/-- The model names `run`'s opening assertion accepts. -/
def validModelNames : List String :=
  ["encdec", "basernn", "baselstm", "seq2seq"]

/-- The `if config.load_model:` branch of `run`: a non-empty `load_model`
loads the checkpoint's state dict; an empty one constructs a `Trainer` and
trains. -/
def load_or_train (load_model : String) : List RunEvent :=
  if load_model = "" then [.trainerConstructed, .trainModelCalled]
  else [.loadedCheckpoint load_model]

/-- `model.load_state_dict(torch.load(path))` with the default
`strict=True`: the loaded parameters replace the current ones wholesale
(the result does not depend on the parameters the model held before). -/
def load_state_dict {P : Type} (_current loaded : P) : P :=
  loaded

/-- The events of one `run(config)` call, as determined by the resolved
`model_name` and `load_model` options. -/
def runTrace (model_name load_model : String) : Except RunError (List RunEvent) :=
  if model_name ∈ validModelNames then
    .ok (RunEvent.seedingPerformed :: load_or_train load_model)
  else .error .assertionFailed

/-- The events of a `run` outcome (an aborted run produced none of the
events modelled here). -/
def runEventsOf : Except RunError (List RunEvent) → List RunEvent
  | .ok evs => evs
  | .error _ => []

/-! ### `main` — the batch loop (`src/main.py`)

`main` reads an INI file with `configparser` (`cp.read(config)`), whose
default strict mode raises `DuplicateSectionError` as soon as a section
name repeats, takes the `common` section as shared options, and runs every
other section as one experiment: its options (merged `{**common_opt,
**section_opt}`) are resolved against the in-code `default_dict` by
`get_option_fallback`, and `run` is invoked on the result.

Sections are modelled as an ordered list of `(name, options)` pairs with
string-valued options (as `configparser` delivers them). -/

/-- An error that aborts `main`: the `DuplicateSectionError` raised by
`cp.read` in strict mode (the spec's `DuplicateExperimentNameError`), a
configuration-resolution error, or `run`'s assertion failure. -/
inductive MainError where
  | duplicateSection (s : String)
  | configError (e : ResolveError)
  | runFailed (e : RunError)
deriving DecidableEq

/-- An observable event of the batch loop. -/
inductive MainEvent where
  | trainerConstructed (section_name : String)
deriving DecidableEq

/-- `cp.read` scanning section headers in order, raising
`DuplicateSectionError` at the first repeated name (configparser strict
mode, the default). -/
def cpReadSections (seen : List String) : List String → Except MainError Unit
  | [] => .ok ()
  | s :: rest =>
    if seen.contains s then .error (.duplicateSection s)
    else cpReadSections (s :: seen) rest

/-- `{**a, **b}` for string-valued dicts: keys of `a` in order (values
overridden by `b` where present), then the keys only `b` has. -/
def pyDictMerge (a b : List (String × String)) : List (String × String) :=
  (a.map fun kv => (kv.1, (b.lookup kv.1).getD kv.2)) ++
    b.filter fun kv => (a.lookup kv.1).isNone

/-- Modelled from the spec: `SOURCE_ASSIST0910_ORIG` is a dataset identifier
imported from `src.data`, a module of this repository that is not under
`src/`; the spec describes `source_data` only as a dataset identifier, so
it is modelled as an opaque string constant. -/
def SOURCE_ASSIST0910_ORIG : PyVal :=
  .str "assist0910_orig"

/-- The in-code `default_dict` of `main` (the fallback schema), transcribed
entry by entry; `section_name`'s default is
`common_opt.get('common_name', '') + section`. -/
def main_default_dict (common_opt : List (String × String)) (section_name : String) :
    List (String × FbEntry) :=
  [ ("common_name", .val (.str "")),
    ("section_name", .val (.str (((common_opt.lookup "common_name").getD "") ++ section_name))),
    ("debug", .val (.bool false)),
    ("model_name", .typ .str),
    ("load_model", .val (.str "")),
    ("plot_heatmap", .val (.bool false)),
    ("plot_lc", .val (.bool false)),
    ("source_data", .val SOURCE_ASSIST0910_ORIG),
    ("ks_loss", .val (.bool false)),
    ("extend_backward", .val (.int 0)),
    ("extend_forward", .val (.int 0)),
    ("epoch_size", .val (.int 200)),
    ("sequence_size", .val (.int 20)),
    ("lr", .val (.float (1 / 20))),
    ("n_skills", .val (.int 124)),
    ("cuda", .val (.bool true)),
    ("batch_size", .val (.int 100)) ]

/-- Reads a resolved string option (resolved values for `model_name` and
`load_model` are always `.str`, since their fallback entries are
string-typed). -/
def resolvedStr (cfg : List (String × PyVal)) (k : String) : String :=
  match cfg.lookup k with
  | some (.str s) => s
  | _ => ""

/-- One iteration of `main`'s section loop: resolve the merged options
against `default_dict`, then call `run`; returns the trainer-construction
events and the error aborting the batch, if any.  (The source also wraps the
resolved dict in a `Config` object and prints it; that does not affect which
trainers are constructed.) -/
def sectionTrace (common_opt : List (String × String)) (name : String)
    (opts : List (String × String)) : List MainEvent × Option MainError :=
  match get_option_fallback
      ((pyDictMerge common_opt opts).map fun kv => (kv.1, PyVal.str kv.2))
      (main_default_dict common_opt name) with
  | .error e => ([], some (.configError e))
  | .ok cfg =>
    match runTrace (resolvedStr cfg "model_name") (resolvedStr cfg "load_model") with
    | .error e => ([], some (.runFailed e))
    | .ok evs =>
      (if RunEvent.trainerConstructed ∈ evs then [MainEvent.trainerConstructed name] else [],
       none)

/-- `main`'s loop over the non-`common` sections, stopping at the first
aborting error. -/
def mainLoop (common_opt : List (String × String)) :
    List (String × List (String × String)) → List MainEvent × Option MainError
  | [] => ([], none)
  | (name, opts) :: rest =>
    match sectionTrace common_opt name opts with
    | (evs, some e) => (evs, some e)
    | (evs, none) =>
      match mainLoop common_opt rest with
      | (evs2, err2) => (evs ++ evs2, err2)

/-- `main(config)`: parse the INI file (duplicate section names abort here,
before anything else runs), take `common` as shared options, and run each
remaining section. -/
def mainTrace (sections : List (String × List (String × String))) :
    List MainEvent × Option MainError :=
  match cpReadSections [] (sections.map Prod.fst) with
  | .error e => ([], some e)
  | .ok _ =>
    mainLoop ((sections.lookup "common").getD [])
      (sections.filter fun s => s.1 != "common")

/-- Whether a `main` outcome is: aborted by `DuplicateSectionError` with no
trainer ever constructed. -/
def failsAsDuplicate : List MainEvent × Option MainError → Bool
  | ([], some (.duplicateSection _)) => true
  | _ => false

/-- Whether a single-key resolution raised the required-option KeyError. -/
def keyMissing : Except ResolveError PyVal → Bool
  | .error (.missingRequired _) => true
  | _ => false

/-- Every key supplied in `options` is a key of the fallback schema. -/
def allKnownKeys (options : List (String × PyVal)) (fallback : List (String × FbEntry)) : Bool :=
  (options.map Prod.fst).all fun k => (fallback.lookup k).isSome

/-- Whether `cp.read` aborted with `DuplicateSectionError`. -/
def isDupError : Except MainError Unit → Bool
  | .error (.duplicateSection _) => true
  | _ => false

/-! ### Association-list lemmas -/

theorem lookup_mem {β : Type} {l : List (String × β)} {k : String} {v : β}
    (h : l.lookup k = some v) : (k, v) ∈ l := by
  induction l with
  | nil => simp [List.lookup] at h
  | cons kv rest ih =>
    obtain ⟨k', v'⟩ := kv
    rw [List.lookup] at h
    by_cases hk : k = k'
    · subst hk
      simp at h
      subst h
      exact List.mem_cons_self _ _
    · simp [beq_false_of_ne hk] at h
      exact List.mem_cons_of_mem _ (ih h)

theorem mem_keys_of_lookup {β : Type} {l : List (String × β)} {k : String} {v : β}
    (h : l.lookup k = some v) : k ∈ l.map Prod.fst := by
  have := lookup_mem h
  exact List.mem_map.mpr ⟨(k, v), this, rfl⟩

theorem lookup_isSome_of_mem_keys {β : Type} {l : List (String × β)} {k : String}
    (h : k ∈ l.map Prod.fst) : (l.lookup k).isSome := by
  induction l with
  | nil => simp at h
  | cons kv rest ih =>
    obtain ⟨k', v'⟩ := kv
    rw [List.lookup]
    by_cases hk : k = k'
    · simp [hk]
    · simp only [List.map_cons, List.mem_cons] at h
      rcases h with h | h
      · exact absurd h hk
      · simp only [beq_false_of_ne hk]
        exact ih h

/-! ### Coercion lemmas -/

theorem coerce_self_isSome (v : PyVal) : (coerce v.type v).isSome := by
  cases v <;> simp [coerce, PyVal.type]

theorem coerce_type {t : PyType} {v w : PyVal} (h : coerce t v = some w) :
    w.type = t := by
  cases t <;> cases v <;> simp only [coerce] at h
  case int.str s =>
    cases hp : pyParseInt s <;> rw [hp] at h <;> simp at h
    rw [← h]
    rfl
  case float.str s =>
    cases hp : pyParseFloat s <;> rw [hp] at h <;> simp at h
    rw [← h]
    rfl
  all_goals (cases h; rfl)

/-! ### Resolver lemmas -/

theorem resolveKey_okOrMissing {options : List (String × PyVal)}
    {fallback : List (String × FbEntry)}
    (hc : suppliedCoercionsOk options fallback = true)
    {k : String} (hk : (fallback.lookup k).isSome) :
    keyOkOrMissing (resolveKey options fallback k) = true := by
  cases hf : fallback.lookup k with
  | none => rw [hf] at hk; simp at hk
  | some e =>
    cases e with
    | typ t =>
      cases ho : options.lookup k with
      | none => simp [resolveKey, hf, ho, keyOkOrMissing]
      | some v =>
        have hs := (List.all_eq_true.mp hc) ⟨k, v⟩ (lookup_mem ho)
        simp only [hf, FbEntry.expectedType] at hs
        cases hco : coerce t v with
        | none => rw [hco] at hs; simp at hs
        | some w => simp [resolveKey, hf, ho, hco, keyOkOrMissing]
    | val d =>
      cases ho : options.lookup k with
      | none =>
        cases hco : coerce d.type d with
        | none =>
          have hs := coerce_self_isSome d
          rw [hco] at hs
          simp at hs
        | some w => simp [resolveKey, hf, ho, hco, keyOkOrMissing]
      | some v =>
        have hs := (List.all_eq_true.mp hc) ⟨k, v⟩ (lookup_mem ho)
        simp only [hf, FbEntry.expectedType] at hs
        cases hco : coerce d.type v with
        | none => rw [hco] at hs; simp at hs
        | some w => simp [resolveKey, hf, ho, hco, keyOkOrMissing]

theorem resolveKeys_append_missing {options : List (String × PyVal)}
    {fallback : List (String × FbEntry)} {xs ys : List String}
    (hall : ∀ k ∈ xs, keyOkOrMissing (resolveKey options fallback k) = true)
    (hex : ∃ k ∈ xs, keyMissing (resolveKey options fallback k) = true) :
    isMissingRequiredError (resolveKeys options fallback (xs ++ ys)) = true := by
  induction xs with
  | nil => simp at hex
  | cons k xs ih =>
    rw [List.cons_append, resolveKeys]
    cases hr : resolveKey options fallback k with
    | error e =>
      have hk := hall k (List.mem_cons_self _ _)
      rw [hr] at hk
      cases e with
      | missingRequired k' => rfl
      | unknownOption k' => simp [keyOkOrMissing] at hk
      | coercionFailure k' => simp [keyOkOrMissing] at hk
    | ok v =>
      have hrec : isMissingRequiredError (resolveKeys options fallback (xs ++ ys)) = true := by
        apply ih
        · intro k' hk'
          exact hall k' (List.mem_cons_of_mem _ hk')
        · rcases hex with ⟨k', hk', hm⟩
          rcases List.mem_cons.mp hk' with rfl | hk'
          · rw [hr] at hm; simp [keyMissing] at hm
          · exact ⟨k', hk', hm⟩
      cases hrest : resolveKeys options fallback (xs ++ ys) with
      | error e =>
        rw [hrest] at hrec
        cases e <;> simp_all [isMissingRequiredError]
      | ok rest => rw [hrest] at hrec; simp [isMissingRequiredError] at hrec

theorem resolveKeys_append_error {options : List (String × PyVal)}
    {fallback : List (String × FbEntry)} {xs ys : List String} {e : ResolveError}
    (hall : ∀ k ∈ xs, keyOk (resolveKey options fallback k) = true)
    (he : resolveKeys options fallback ys = .error e) :
    resolveKeys options fallback (xs ++ ys) = .error e := by
  induction xs with
  | nil => simpa using he
  | cons k xs ih =>
    rw [List.cons_append, resolveKeys]
    cases hr : resolveKey options fallback k with
    | error e' =>
      have hk := hall k (List.mem_cons_self _ _)
      rw [hr] at hk
      simp [keyOk] at hk
    | ok v =>
      rw [ih fun k' hk' => hall k' (List.mem_cons_of_mem _ hk')]

theorem resolveKeys_ok_keys {options : List (String × PyVal)}
    {fallback : List (String × FbEntry)} {ks : List String}
    {res : List (String × PyVal)}
    (h : resolveKeys options fallback ks = .ok res) : res.map Prod.fst = ks := by
  induction ks generalizing res with
  | nil => rw [resolveKeys] at h; cases h; rfl
  | cons k ks ih =>
    rw [resolveKeys] at h
    cases hr : resolveKey options fallback k with
    | error e => rw [hr] at h; cases h
    | ok v =>
      rw [hr] at h
      cases hrest : resolveKeys options fallback ks with
      | error e => rw [hrest] at h; cases h
      | ok rest =>
        rw [hrest] at h
        cases h
        simp [ih hrest]

theorem resolveKeys_ok_all {options : List (String × PyVal)}
    {fallback : List (String × FbEntry)} {ks : List String}
    {res : List (String × PyVal)}
    (h : resolveKeys options fallback ks = .ok res) :
    ∀ k ∈ ks, keyOk (resolveKey options fallback k) = true := by
  induction ks generalizing res with
  | nil => intro k hk; simp at hk
  | cons k ks ih =>
    rw [resolveKeys] at h
    cases hr : resolveKey options fallback k with
    | error e => rw [hr] at h; cases h
    | ok v =>
      rw [hr] at h
      cases hrest : resolveKeys options fallback ks with
      | error e => rw [hrest] at h; cases h
      | ok rest =>
        intro k' hk'
        rcases List.mem_cons.mp hk' with rfl | hk'
        · rw [hr]; rfl
        · exact ih hrest k' hk'

theorem resolveKeys_ok_mem {options : List (String × PyVal)}
    {fallback : List (String × FbEntry)} {ks : List String}
    {res : List (String × PyVal)}
    (h : resolveKeys options fallback ks = .ok res) :
    ∀ kv ∈ res, resolveKey options fallback kv.1 = .ok kv.2 := by
  induction ks generalizing res with
  | nil => rw [resolveKeys] at h; cases h; intro kv hkv; simp at hkv
  | cons k ks ih =>
    rw [resolveKeys] at h
    cases hr : resolveKey options fallback k with
    | error e => rw [hr] at h; cases h
    | ok v =>
      rw [hr] at h
      cases hrest : resolveKeys options fallback ks with
      | error e => rw [hrest] at h; cases h
      | ok rest =>
        rw [hrest] at h
        cases h
        intro kv hkv
        rcases List.mem_cons.mp hkv with rfl | hkv
        · exact hr
        · exact ih hrest kv hkv

/-! ### `BaseConfig` lemmas -/

theorem lookup_eq_none_of_not_mem_keys {β : Type} {l : List (String × β)} {k : String}
    (h : k ∉ l.map Prod.fst) : l.lookup k = none := by
  cases hl : l.lookup k with
  | none => rfl
  | some v => exact absurd (mem_keys_of_lookup hl) h

theorem lookup_of_mem_nodup {β : Type} {l : List (String × β)}
    (hnd : (l.map Prod.fst).Nodup) {k : String} {v : β} (hm : (k, v) ∈ l) :
    l.lookup k = some v := by
  induction l with
  | nil => simp at hm
  | cons kv rest ih =>
    obtain ⟨k', v'⟩ := kv
    simp only [List.map_cons, List.nodup_cons] at hnd
    rcases List.mem_cons.mp hm with h | h
    · cases h
      simp [List.lookup]
    · have hk : k ≠ k' := by
        intro he
        subst he
        exact hnd.1 (List.mem_map.mpr ⟨(k, v), h, rfl⟩)
      simp only [List.lookup, beq_false_of_ne hk]
      exact ih hnd.2 h

theorem init_foldl_attr_list (options : List (String × PyVal)) (c : BaseConfig) :
    (options.foldl
      (fun c kv => { attrs := pySetattr c.attrs kv.1 kv.2, attr_list := c.attr_list ++ [kv.1] })
      c).attr_list = c.attr_list ++ options.map Prod.fst := by
  induction options generalizing c with
  | nil => simp
  | cons kv rest ih => simp [ih, List.append_assoc]

theorem init_foldl_attrs (options : List (String × PyVal)) (c : BaseConfig) :
    (options.foldl
      (fun c kv => { attrs := pySetattr c.attrs kv.1 kv.2, attr_list := c.attr_list ++ [kv.1] })
      c).attrs = options.reverse ++ c.attrs := by
  induction options generalizing c with
  | nil => simp
  | cons kv rest ih =>
    rw [List.foldl_cons, ih]
    simp [pySetattr, List.append_assoc]

theorem getattrAll_eq {attrs : List (String × PyVal)} {options : List (String × PyVal)}
    (h : ∀ kv ∈ options, attrs.lookup kv.1 = some kv.2) :
    getattrAll attrs (options.map Prod.fst) = some options := by
  induction options with
  | nil => rfl
  | cons kv rest ih =>
    simp only [List.map_cons, getattrAll, pyGetattr]
    rw [h kv (List.mem_cons_self _ _), ih fun kv' h' => h kv' (List.mem_cons_of_mem _ h')]

/-! ### Lexicographic order on checkpoint filenames -/

theorem digitChar_lt_digitChar {d1 d2 : Nat} (h : d1 < d2) (h2 : d2 ≤ 9) :
    Nat.digitChar d1 < Nat.digitChar d2 := by
  have hu : d1 ≤ 8 := by omega
  interval_cases d1 <;> interval_cases d2 <;> decide

theorem lex_append_left {r : Char → Char → Prop} (p : List Char) {xs ys : List Char}
    (h : List.Lex r xs ys) : List.Lex r (p ++ xs) (p ++ ys) := by
  induction p with
  | nil => simpa
  | cons c p ih =>
    simp only [List.cons_append]
    exact List.Lex.cons ih

theorem lex_append_of_length_eq {r : Char → Char → Prop} {u v : List Char}
    {xs ys : List Char} (h : List.Lex r xs ys) :
    xs.length = ys.length → List.Lex r (xs ++ u) (ys ++ v) := by
  induction h with
  | nil => intro hlen; simp at hlen
  | cons h ih =>
    intro hlen
    exact List.Lex.cons (ih (by simpa using hlen))
  | rel h =>
    intro _
    exact List.Lex.rel h

theorem aucChars_lex {a1 a2 : Nat} (h : a1 < a2) (h2 : a2 ≤ 10000) :
    List.Lex (· < ·) (aucChars a1) (aucChars a2) := by
  unfold aucChars
  rcases Nat.lt_or_ge (a1 / 10000) (a2 / 10000) with hd | hd
  · exact List.Lex.rel (digitChar_lt_digitChar hd (by omega))
  · have he : a1 / 10000 = a2 / 10000 := by omega
    have hb2 : a2 < 10000 := by omega
    rw [he]
    apply List.Lex.cons
    apply List.Lex.cons
    rcases Nat.lt_or_ge (a1 / 1000) (a2 / 1000) with h3 | h3
    · exact List.Lex.rel (digitChar_lt_digitChar (by omega) (by omega))
    · have he3 : a1 / 1000 % 10 = a2 / 1000 % 10 := by omega
      rw [he3]
      apply List.Lex.cons
      rcases Nat.lt_or_ge (a1 / 100) (a2 / 100) with h4 | h4
      · exact List.Lex.rel (digitChar_lt_digitChar (by omega) (by omega))
      · have he4 : a1 / 100 % 10 = a2 / 100 % 10 := by omega
        rw [he4]
        apply List.Lex.cons
        rcases Nat.lt_or_ge (a1 / 10) (a2 / 10) with h5 | h5
        · exact List.Lex.rel (digitChar_lt_digitChar (by omega) (by omega))
        · have he5 : a1 / 10 % 10 = a2 / 10 % 10 := by omega
          rw [he5]
          apply List.Lex.cons
          exact List.Lex.rel (digitChar_lt_digitChar (by omega) (by omega))

theorem checkpointFilename_toList (n : String) (a e : Nat) :
    (checkpointFilename n a e).toList =
      (n.data ++ "_auc".data) ++
        (aucChars a ++ ("_e".data ++ ((Nat.repr e).data ++ ".model".data))) := by
  simp [checkpointFilename, String.toList, formatAuc4, List.append_assoc]

theorem checkpointFilename_lt_of_auc_lt {name : String} {a1 a2 : Nat} (e1 e2 : Nat)
    (h : a1 < a2) (h2 : a2 ≤ 10000) :
    checkpointFilename name a1 e1 < checkpointFilename name a2 e2 := by
  rw [String.lt_iff_toList_lt, checkpointFilename_toList, checkpointFilename_toList]
  exact lex_append_left _ (lex_append_of_length_eq (aucChars_lex h h2) rfl)

/-! ### Remaining helper definitions and lemmas -/

theorem resolveKey_ok_type {options : List (String × PyVal)}
    {fallback : List (String × FbEntry)} {k : String} {v : PyVal}
    (h : resolveKey options fallback k = .ok v) :
    ∃ e, fallback.lookup k = some e ∧ v.type = e.expectedType := by
  cases hf : fallback.lookup k with
  | none => simp [resolveKey, hf] at h
  | some e =>
    refine ⟨e, rfl, ?_⟩
    cases e with
    | typ t =>
      cases ho : options.lookup k with
      | none => simp [resolveKey, hf, ho] at h
      | some w =>
        cases hco : coerce t w with
        | none => simp [resolveKey, hf, ho, hco] at h
        | some u =>
          simp only [resolveKey, hf, ho, hco, Except.ok.injEq] at h
          subst h
          exact coerce_type hco
    | val d =>
      cases hco : coerce d.type ((options.lookup k).getD d) with
      | none => simp [resolveKey, hf, hco] at h
      | some u =>
        simp only [resolveKey, hf, hco, Except.ok.injEq] at h
        subst h
        exact coerce_type hco

theorem cpRead_dup_of_seen {l : List String} {s : String} :
    ∀ seen, s ∈ seen → s ∈ l → isDupError (cpReadSections seen l) = true := by
  induction l with
  | nil => intro seen _ h; simp at h
  | cons a rest ih =>
    intro seen hs hl
    rw [cpReadSections]
    by_cases hc : seen.contains a
    · have hmem : a ∈ seen := by simpa using hc
      simp [hmem, isDupError]
    · have hmem : a ∉ seen := by simpa using hc
      rcases List.mem_cons.mp hl with rfl | hl
      · exact absurd hs hmem
      · simp only [hc, if_false, Bool.false_eq_true]
        exact ih (a :: seen) (List.mem_cons_of_mem _ hs) hl

theorem cpRead_dup {l : List String} (h : ¬ l.Nodup) :
    ∀ seen, isDupError (cpReadSections seen l) = true := by
  induction l with
  | nil => intro seen; exact absurd List.nodup_nil h
  | cons a rest ih =>
    intro seen
    rw [cpReadSections]
    by_cases hc : seen.contains a
    · have hmem : a ∈ seen := by simpa using hc
      simp [hmem, isDupError]
    · simp only [hc, if_false, Bool.false_eq_true]
      by_cases ha : a ∈ rest
      · exact cpRead_dup_of_seen (a :: seen) (List.mem_cons_self _ _) ha
      · have hrest : ¬ rest.Nodup := fun hn => h (List.nodup_cons.mpr ⟨ha, hn⟩)
        exact ih hrest (a :: seen)

/-! ## The claims -/

/-- C1, as stated, is false: checkpoint filenames do not zero-pad the epoch,
so at equal AUC the numeric order of `(auc, epoch)` pairs — `(0.5000, 9)`
before `(0.5000, 10)` — is the reverse of the string order of the
filenames, where `m_auc0.5000_e10.model` sorts before `m_auc0.5000_e9.model`
(`'1' < '9'` at the first differing character). -/
theorem claim_C1_counterexample :
    (checkpointFilename "m" 5000 10 < checkpointFilename "m" 5000 9) ∧ (9 : Nat) < 10 := by
  constructor
  · rw [String.lt_iff_toList_lt]
    have h1 : (checkpointFilename "m" 5000 10).toList =
        "m_auc0.5000_e".data ++ ('1' :: "0.model".data) := by decide
    have h2 : (checkpointFilename "m" 5000 9).toList =
        "m_auc0.5000_e".data ++ ('9' :: ".model".data) := by decide
    rw [h1, h2]
    exact lex_append_left _ (List.Lex.rel (by decide))
  · decide

/-- C1 amended: among checkpoints of one model identifier, lexicographic
filename order agrees with numeric order whenever the (4-decimal-rounded)
AUCs differ — strictly larger AUC gives a strictly larger filename — so the
last filename in sort order is a checkpoint of best AUC; only the relative
order of equal-AUC checkpoints (differing epochs, unpadded) can deviate from
numeric `(auc, epoch)` order.  AUCs are in ten-thousandths, so `≤ 10000`
means AUC `≤ 1`. -/
theorem claim_C1_amended (name : String) (a1 e1 a2 e2 : Nat)
    (h : a1 < a2) (h2 : a2 ≤ 10000) :
    checkpointFilename name a1 e1 < checkpointFilename name a2 e2 :=
  checkpointFilename_lt_of_auc_lt e1 e2 h h2

/-- C1 witness: the two checkpoints of end-to-end scenario 3,
`modelX_auc0.8000_e10.model` and `modelX_auc0.9500_e20.model`, sort with the
better-AUC file last. -/
theorem claim_C1_witness :
    checkpointFilename "modelX" 8000 10 < checkpointFilename "modelX" 9500 20 :=
  claim_C1_amended "modelX" 8000 10 9500 20 (by decide) (by decide)

/-- C2, as stated, is false on the code: for the boolean-typed default
`debug = False`, supplying the string `"False"` resolves to `True`, not
`False`, because the coercion is the Python `bool(...)` constructor and any
non-empty string is truthy. -/
theorem claim_C2_counterexample :
    get_option_fallback [("debug", .str "False")] [("debug", .val (.bool false))] =
        .ok [("debug", .bool true)] ∧
      PyVal.bool true ≠ PyVal.bool false :=
  ⟨by decide, by decide⟩

/-- C2 amended: whenever resolution succeeds, every resolved value is indeed
coerced to the type of the fallback's concrete default (or declared required
type) — but the coercion is the Python type constructor, so a boolean-typed
default maps the string `"False"` (non-empty, hence truthy) to `True`;
only the empty string coerces to `False`. -/
theorem claim_C2_amended (options : List (String × PyVal))
    (fallback : List (String × FbEntry)) (res : List (String × PyVal))
    (h : get_option_fallback options fallback = .ok res) :
    typesMatch res fallback = true := by
  rw [typesMatch, List.all_eq_true]
  intro kv hkv
  obtain ⟨e, he, ht⟩ := resolveKey_ok_type (resolveKeys_ok_mem h kv hkv)
  rw [he]
  simp [ht]

/-- C2 witness: resolving string-valued options against a bool default and
an int default yields values of the defaults' types. -/
theorem claim_C2_witness :
    typesMatch [("debug", .bool true), ("epoch_size", .int 300)]
      [("debug", .val (.bool false)), ("epoch_size", .val (.int 200))] = true :=
  claim_C2_amended [("debug", .str "False"), ("epoch_size", .str "300")]
    [("debug", .val (.bool false)), ("epoch_size", .val (.int 200))]
    [("debug", .bool true), ("epoch_size", .int 300)] (by decide)

/-- C3, as stated, is false on the code: with fallback
`{"a": 5, "b": str}` (so `"b"` is required) and options `{"a": "x"}`
(which omit `"b"`), resolution fails — but with the `ValueError` raised by
`int("x")` at the earlier key `"a"`, not with the required-option
`KeyError`. -/
theorem claim_C3_counterexample :
    get_option_fallback [("a", .str "x")] [("a", .val (.int 5)), ("b", .typ .str)] =
        .error (.coercionFailure "a") ∧
      isMissingRequiredError (get_option_fallback [("a", .str "x")]
        [("a", .val (.int 5)), ("b", .typ .str)]) = false :=
  ⟨by decide, by decide⟩

/-- C3 amended: if the fallback schema declares a required key that the
options do not supply, and every value the options do supply for a known key
coerces successfully (no `ValueError` can fire at an earlier key), then
resolution fails with the `MissingRequiredOptionError` KeyError; in
particular fallback `{"model_name": str}` with empty options does. -/
theorem claim_C3_amended (options : List (String × PyVal))
    (fallback : List (String × FbEntry)) (k : String) (t : PyType)
    (hreq : fallback.lookup k = some (.typ t))
    (hmiss : options.lookup k = none)
    (hc : suppliedCoercionsOk options fallback = true) :
    isMissingRequiredError (get_option_fallback options fallback) = true := by
  rw [get_option_fallback, mergedKeys]
  apply resolveKeys_append_missing
  · intro k' hk'
    exact resolveKey_okOrMissing hc (lookup_isSome_of_mem_keys hk')
  · exact ⟨k, mem_keys_of_lookup hreq, by simp [resolveKey, hreq, hmiss, keyMissing]⟩

/-- C3 witness: end-to-end scenario 2 — fallback `{"model_name": str}`,
options `{}`. -/
theorem claim_C3_witness :
    isMissingRequiredError (get_option_fallback [] [("model_name", .typ .str)]) = true :=
  claim_C3_amended [] [("model_name", .typ .str)] "model_name" .str
    (by decide) (by decide) (by decide)

/-- C4, as stated, is false on the code: the loop visits all fallback keys
before the options-only keys, so with fallback `{"model_name": str}` and
options `{"bogus": 1}` the required-option KeyError for `model_name` fires
first, even though the options contain the unknown key `bogus`. -/
theorem claim_C4_counterexample :
    get_option_fallback [("bogus", .int 1)] [("model_name", .typ .str)] =
        .error (.missingRequired "model_name") ∧
      isUnknownOptionError (get_option_fallback [("bogus", .int 1)]
        [("model_name", .typ .str)]) = false :=
  ⟨by decide, by decide⟩

/-- C4 amended: if the options contain a key absent from the fallback
schema, and every fallback key itself resolves (required keys supplied,
coercions succeed — so no failure fires at an earlier fallback key), then
resolution fails with the `UnknownOptionError` KeyError, regardless of the
unknown key's value. -/
theorem claim_C4_amended (options : List (String × PyVal))
    (fallback : List (String × FbEntry)) (k : String) (v : PyVal)
    (hmem : (k, v) ∈ options)
    (hunk : fallback.lookup k = none)
    (hok : fallbackKeysOk options fallback = true) :
    isUnknownOptionError (get_option_fallback options fallback) = true := by
  rw [get_option_fallback, mergedKeys]
  have hkmem : k ∈ (options.map Prod.fst).filter (fun k => (fallback.lookup k).isNone) :=
    List.mem_filter.mpr ⟨List.mem_map.mpr ⟨(k, v), hmem, rfl⟩, by simp [hunk]⟩
  cases hE : (options.map Prod.fst).filter (fun k => (fallback.lookup k).isNone) with
  | nil => rw [hE] at hkmem; simp at hkmem
  | cons k1 rest =>
    have hk1mem : k1 ∈ (options.map Prod.fst).filter (fun k => (fallback.lookup k).isNone) := by
      rw [hE]
      exact List.mem_cons_self _ _
    have hk1 : fallback.lookup k1 = none :=
      Option.isNone_iff_eq_none.mp (List.mem_filter.mp hk1mem).2
    have herr : resolveKeys options fallback (k1 :: rest) =
        .error (.unknownOption k1) := by
      rw [resolveKeys]
      simp [resolveKey, hk1]
    rw [resolveKeys_append_error (fun k' hk' => List.all_eq_true.mp hok k' hk') herr]
    rfl

/-- C4 witness: options `{"a": 7, "bogus": 1}` against fallback `{"a": 5}`
fail with the unknown-key error. -/
theorem claim_C4_witness :
    isUnknownOptionError (get_option_fallback [("a", .int 7), ("bogus", .int 1)]
      [("a", .val (.int 5))]) = true :=
  claim_C4_amended [("a", .int 7), ("bogus", .int 1)] [("a", .val (.int 5))]
    "bogus" (.int 1) (by decide) (by decide) (by decide)

/-- C5, as stated, is false on the code: the seeding block of `run`
performs no statement fixing the process hash-randomization seed and no
statement requesting deterministic backend execution (the two
`torch.backends.cudnn` lines are commented out in the source). -/
theorem claim_C5_counterexample :
    seedSteps.any SeedAction.isHashSeedSet = false ∧
      seedSteps.any SeedAction.isDeterminismRequest = false :=
  ⟨by decide, by decide⟩

/-- C5 amended: the seeding step seeds the general RNG (`random.seed(0)`),
the numeric-array RNG (`np.random.seed(0)`), and the model-parameter RNG
(`torch.manual_seed(0)`), but contains no separate parallel-device seeding
statement, does not fix the hash-randomization seed, and does not request
deterministic backend execution. -/
theorem claim_C5_amended :
    SeedAction.seedRandom 0 ∈ seedSteps ∧ SeedAction.seedNumpy 0 ∈ seedSteps ∧
      SeedAction.seedTorch 0 ∈ seedSteps ∧
      seedSteps.any SeedAction.isHashSeedSet = false ∧
      seedSteps.any SeedAction.isDeterminismRequest = false := by
  refine ⟨by decide, by decide, by decide, by decide, by decide⟩

/-- C6, as stated, is false on the code: `save_learning_curve` writes
`learning_curve/{model_name}.png` without creating the `learning_curve`
directory first (the other three save helpers do call
`mkdir(exist_ok=True)`). -/
theorem claim_C6_counterexample :
    ensuresTargetDirs (save_learning_curve ⟨["output", "results"], "encdec"⟩) = false := by
  decide

/-- C6 amended: `save_model`, `save_log` and `save_hm_fig` each create their
target directory (if absent) before writing, but `save_learning_curve`
writes its plot without any directory creation. -/
theorem claim_C6_amended (c : SaveConfig) (a epoch : Nat) :
    ensuresTargetDirs (save_model c a epoch) = true ∧
      ensuresTargetDirs (save_log c a epoch) = true ∧
      ensuresTargetDirs (save_hm_fig c) = true ∧
      ensuresTargetDirs (save_learning_curve c) = false := by
  have hdrop : ∀ (l : List String) (x y : String), (l ++ [x, y]).dropLast = l ++ [x] := by
    intro l x y
    rw [show l ++ [x, y] = (l ++ [x]) ++ [y] by simp, List.dropLast_concat]
  refine ⟨?_, ?_, ?_, rfl⟩ <;>
    simp [ensuresTargetDirs, dirsEnsured, save_model, save_log, save_hm_fig, hdrop]

/-- C7: a batch configuration in which two sections share a name aborts
inside `cp.read` (configparser strict mode raises `DuplicateSectionError`,
which realizes the spec's `DuplicateExperimentNameError`) before the
experiment loop starts, so no `Trainer` is constructed for any experiment
of the batch. -/
theorem claim_C7 (sections : List (String × List (String × String)))
    (hdup : ¬ (sections.map Prod.fst).Nodup) :
    failsAsDuplicate (mainTrace sections) = true := by
  have hd := cpRead_dup hdup []
  cases hr : cpReadSections [] (sections.map Prod.fst) with
  | ok u => rw [hr] at hd; simp [isDupError] at hd
  | error e =>
    rw [hr] at hd
    cases e with
    | duplicateSection s => simp [mainTrace, hr, failsAsDuplicate]
    | configError e' => simp [isDupError] at hd
    | runFailed e' => simp [isDupError] at hd

/-- C7 witness: a batch with two sections both named `exp1` fails as a
duplicate with no trainer constructed. -/
theorem claim_C7_witness :
    failsAsDuplicate (mainTrace
      [("exp1", [("model_name", "encdec")]), ("exp1", [("model_name", "basernn")])]) = true :=
  claim_C7 [("exp1", [("model_name", "encdec")]), ("exp1", [("model_name", "basernn")])]
    (by decide)

/-- C8: when the resolved configuration names a prior checkpoint
(`load_model` non-empty) and the run passes its model-name assertion, `run`
performs no trainer construction, no `train_model()` and no
`pre_train_model()`; it loads the checkpoint, and `load_state_dict`
(default `strict=True`) replaces the parameters wholesale — the result is
the loaded checkpoint regardless of the parameters held before. -/
theorem claim_C8 (model_name load_model : String) (P : Type) (cur ckpt : P)
    (hvalid : model_name ∈ validModelNames) (hload : load_model ≠ "") :
    runEventsOf (runTrace model_name load_model) =
        [RunEvent.seedingPerformed, RunEvent.loadedCheckpoint load_model] ∧
      RunEvent.trainModelCalled ∉ runEventsOf (runTrace model_name load_model) ∧
      RunEvent.preTrainModelCalled ∉ runEventsOf (runTrace model_name load_model) ∧
      RunEvent.trainerConstructed ∉ runEventsOf (runTrace model_name load_model) ∧
      load_state_dict cur ckpt = ckpt := by
  have ht : runTrace model_name load_model =
      .ok [RunEvent.seedingPerformed, RunEvent.loadedCheckpoint load_model] := by
    rw [runTrace, if_pos hvalid, load_or_train, if_neg hload]
  rw [ht]
  refine ⟨rfl, ?_, ?_, ?_, rfl⟩ <;> simp [runEventsOf]

/-- C8 witness: an `encdec` run with `load_model = "ckpt.model"` loads and
never trains; loading `{"w": 2}` over `{"w": 1}` yields `{"w": 2}`. -/
theorem claim_C8_witness :
    runEventsOf (runTrace "encdec" "ckpt.model") =
        [RunEvent.seedingPerformed, RunEvent.loadedCheckpoint "ckpt.model"] ∧
      RunEvent.trainModelCalled ∉ runEventsOf (runTrace "encdec" "ckpt.model") ∧
      RunEvent.preTrainModelCalled ∉ runEventsOf (runTrace "encdec" "ckpt.model") ∧
      RunEvent.trainerConstructed ∉ runEventsOf (runTrace "encdec" "ckpt.model") ∧
      load_state_dict [("w", (1 : Int))] [("w", (2 : Int))] = [("w", (2 : Int))] :=
  claim_C8 "encdec" "ckpt.model" (List (String × Int)) [("w", 1)] [("w", 2)]
    (by decide) (by decide)

/-- C9: when resolution succeeds, the resolved mapping has exactly the
fallback schema's keys, in the schema's order, and every supplied options
key is a fallback key. -/
theorem claim_C9 (options : List (String × PyVal)) (fallback : List (String × FbEntry))
    (res : List (String × PyVal)) (h : get_option_fallback options fallback = .ok res) :
    res.map Prod.fst = fallback.map Prod.fst ∧ allKnownKeys options fallback = true := by
  rw [get_option_fallback] at h
  have hkeys := resolveKeys_ok_keys h
  have hall := resolveKeys_ok_all h
  have hnil : (options.map Prod.fst).filter (fun k => (fallback.lookup k).isNone) = [] := by
    cases hE : (options.map Prod.fst).filter (fun k => (fallback.lookup k).isNone) with
    | nil => rfl
    | cons k1 rest =>
      have hk1mem : k1 ∈ (options.map Prod.fst).filter
          (fun k => (fallback.lookup k).isNone) := by
        rw [hE]
        exact List.mem_cons_self _ _
      have hk1 : fallback.lookup k1 = none :=
        Option.isNone_iff_eq_none.mp (List.mem_filter.mp hk1mem).2
      have hm : k1 ∈ mergedKeys options fallback :=
        List.mem_append_right _ hk1mem
      have := hall k1 hm
      rw [resolveKey, hk1] at this
      simp [keyOk] at this
  constructor
  · rw [hkeys, mergedKeys, hnil, List.append_nil]
  · rw [allKnownKeys, List.all_eq_true]
    intro k hk
    cases hl : fallback.lookup k with
    | some e => simp
    | none =>
      have : k ∈ (options.map Prod.fst).filter (fun k => (fallback.lookup k).isNone) :=
        List.mem_filter.mpr ⟨hk, by simp [hl]⟩
      rw [hnil] at this
      simp at this

/-- C9 witness: resolving `{"debug": "False"}` against the schema
`{"debug": False, "cuda": True}` returns exactly the schema's keys. -/
theorem claim_C9_witness :
    [("debug", PyVal.bool true), ("cuda", PyVal.bool true)].map Prod.fst =
        [("debug", FbEntry.val (PyVal.bool false)),
          ("cuda", FbEntry.val (PyVal.bool true))].map Prod.fst ∧
      allKnownKeys [("debug", PyVal.str "False")]
        [("debug", FbEntry.val (PyVal.bool false)),
          ("cuda", FbEntry.val (PyVal.bool true))] = true :=
  claim_C9 [("debug", PyVal.str "False")]
    [("debug", FbEntry.val (PyVal.bool false)), ("cuda", FbEntry.val (PyVal.bool true))]
    [("debug", PyVal.bool true), ("cuda", PyVal.bool true)] (by decide)

/-- C10: building a `BaseConfig` from a mapping whose keys are distinct and
do not include `_attr_list` (the model keeps `_attr_list` outside the
attribute store, which is faithful exactly under that assumption) and
reading it back with `as_dict` returns the original mapping. -/
theorem claim_C10 (options : List (String × PyVal))
    (hnd : (options.map Prod.fst).Nodup)
    (_hattr : "_attr_list" ∉ options.map Prod.fst) :
    BaseConfig.as_dict (BaseConfig.init options) = some options := by
  have hal : (BaseConfig.init options).attr_list = options.map Prod.fst := by
    rw [BaseConfig.init, init_foldl_attr_list]
    rfl
  have has : (BaseConfig.init options).attrs = options.reverse := by
    rw [BaseConfig.init, init_foldl_attrs]
    simp
  rw [BaseConfig.as_dict, hal, has]
  apply getattrAll_eq
  intro kv hkv
  obtain ⟨k, v⟩ := kv
  apply lookup_of_mem_nodup
  · rw [List.map_reverse]
    exact List.nodup_reverse.mpr hnd
  · exact List.mem_reverse.mpr hkv

/-- C10 witness: a two-key configuration round-trips. -/
theorem claim_C10_witness :
    BaseConfig.as_dict (BaseConfig.init
        [("model_name", .str "encdec"), ("epoch_size", .int 200)]) =
      some [("model_name", .str "encdec"), ("epoch_size", .int 200)] :=
  claim_C10 [("model_name", .str "encdec"), ("epoch_size", .int 200)]
    (by decide) (by decide)
